import Mathlib

/-!
Verification of the capacity-forecast dashboard (app.py).

The embedding models the flight-query store, the `/update-data` HTTP
handler, and the `update_graph` refresh callback: SQL fetch of the
forecast table (CapacityTransaction), the passenger table (AirlinePAX)
and the schedule table (AirlineScheduleRouteForecast), the pandas
left-merge, the derived-metric columns, the date-window filters that
assign provenance, the groupby-sum reconciliation, and the plotly
figure (traces, transition bridges, the Today marker).

Dates are integer day numbers; database decimals are rationals.
External effects are passed in as values: the outcome of
`request.get_json()` and of the database connection and reads are
`Except String` arguments whose error carries the exception text.
-/

namespace CapacityForecast

/-- Calendar dates as integer day numbers, so that `timedelta(days=n)`
is integer subtraction and date comparison is integer order. -/
abbrev Date := Int

/-- The global `current_flight_data` dictionary (app.py lines 16-21):
flight number, flight date (an ISO string, as delivered over HTTP),
origin and destination. -/
structure FlightQuery where
  flight_no : String
  flight_date : String
  flight_origin : String
  flight_destination : String
deriving DecidableEq, Repr

/-- Truthiness check `all([f_no, f_date, origin, destination])` of
app.py line 142: every field non-empty. -/
def FlightQuery.complete (q : FlightQuery) : Bool :=
  q.flight_no ≠ "" && q.flight_date ≠ "" && q.flight_origin ≠ "" && q.flight_destination ≠ ""

/-- A parsed JSON body for `POST /update-data`: each of the four keys
may be present or absent (`data.get(key, default)` at lines 92-97). -/
structure UpdateBody where
  flight_no : Option String
  flight_date : Option String
  flight_origin : Option String
  flight_destination : Option String
deriving DecidableEq, Repr

/-- An HTTP response: the JSON `status` and `message` fields plus the
status code. -/
structure HttpResponse where
  status : String
  message : String
  code : Nat
deriving DecidableEq, Repr

/-- The `update_data` handler (app.py lines 83-105).  The outcome of
`request.get_json()` and the subsequent key accesses is passed as
`body`: `.ok` is a parsed JSON object, `.error` carries the exception
text.  On success the store is overwritten wholesale, each missing key
defaulting to the empty string except `flight_date`, which defaults to
the ISO date of today (`todayIso`); on failure the store is unchanged
and the handler answers 400 with the exception text. -/
def update_data (store : FlightQuery) (todayIso : String)
    (body : Except String UpdateBody) : FlightQuery × HttpResponse :=
  match body with
  | .error e => (store, ⟨"error", e, 400⟩)
  | .ok d =>
      (⟨d.flight_no.getD "", d.flight_date.getD todayIso,
        d.flight_origin.getD "", d.flight_destination.getD ""⟩,
       ⟨"success", "Data received successfully", 200⟩)

/-- A row of `dbo.CapacityTransaction` restricted to the columns kept
at app.py line 159 (the ID column plays no further role). -/
structure CTRow where
  fltNo : String
  fltDate : Date
  origin : String
  destination : String
  reportWeight : ℚ
  reportVolume : ℚ
deriving DecidableEq, Repr

/-- The `dbo.AirlinePAX` columns that the merge at lines 179-183 keeps
(ExpectedBaggage and CapacityWeightHold are merged in but never used
afterwards, so they are omitted).  `Underload` may be NULL: the code
guards it with `fillna(0)` at line 188.  The other numeric columns are
taken as non-null. -/
structure PaxCols where
  expectedPAXCount : ℚ
  avgBagPerPAX : ℚ
  underload : Option ℚ
  capacityVolumeHold : ℚ
deriving DecidableEq, Repr

/-- A row of `dbo.AirlinePAX`: the four merge-key columns plus the
value columns. -/
structure PaxRow where
  flightID : String
  source : String
  dest : String
  flightSchDept : Date
  cols : PaxCols
deriving DecidableEq, Repr

/-- A row of `dbo.AirlineScheduleRouteForecast` restricted to the
columns the pipeline reads.  `AirCraftType` and `DepartedWeight` may be
NULL: the query filters on the former (line 172) and the code applies
`fillna(0)` to the latter (line 188). -/
structure ASRFRow where
  flightID : String
  source : String
  dest : String
  flightSchDept : Date
  airCraftType : Option String
  departedWeight : Option ℚ
deriving DecidableEq, Repr

/-- The external relational store: the three tables read at lines 158,
162 and 174. -/
structure Database where
  capacityTransaction : List CTRow
  airlinePAX : List PaxRow
  scheduleRouteForecast : List ASRFRow
deriving DecidableEq, Repr

/-- Aircraft types excluded by the SQL `NOT IN` list at line 171. -/
def badAircraftTypes : List String := ["323", "32S", "ATR"]

/-- The WHERE clause of the schedule query (lines 166-173):
`Source = ? AND Dest = ? AND FlightID = ? AND AirCraftType NOT IN
(..) AND AirCraftType IS NOT NULL AND FlightSchDept >= ?`.  A NULL
aircraft type fails the clause. -/
def asrfWhere (origin destination f_no : String) (fifteen_days_before : Date)
    (r : ASRFRow) : Bool :=
  r.source == origin && r.dest == destination && r.flightID == f_no &&
    (match r.airCraftType with
     | none => false
     | some t => !(badAircraftTypes.contains t)) &&
    decide (fifteen_days_before ≤ r.flightSchDept)

/-- The schedule query of line 174: the table filtered by the WHERE
clause. -/
def fetchASRF (db : Database) (origin destination f_no : String)
    (fifteen_days_before : Date) : List ASRFRow :=
  db.scheduleRouteForecast.filter (asrfWhere origin destination f_no fifteen_days_before)

/-- The passenger query of lines 162-163:
`SELECT * FROM dbo.AirlinePAX WHERE FlightSchDept >= ?`. -/
def fetchPax (db : Database) (fifteen_days_before : Date) : List PaxRow :=
  db.airlinePAX.filter (fun p => decide (fifteen_days_before ≤ p.flightSchDept))

/-- A row of the merged dataframe of lines 179-183: the schedule
columns plus the passenger value columns, which are all-NaN (`none`)
when the left merge found no passenger counterpart. -/
structure MergedRow where
  flightID : String
  source : String
  dest : String
  flightSchDept : Date
  airCraftType : Option String
  departedWeight : Option ℚ
  paxCols : Option PaxCols
deriving DecidableEq, Repr

/-- The merge-key comparison on `merge_cols = [FlightID, Source, Dest,
FlightSchDept]` (line 177). -/
def paxMatch (a : ASRFRow) (p : PaxRow) : Bool :=
  p.flightID == a.flightID && p.source == a.source && p.dest == a.dest &&
    p.flightSchDept == a.flightSchDept

/-- The pandas left merge (lines 179-183), one schedule row at a time:
each matching passenger row contributes a merged row; a schedule row
with no match survives once with NaN passenger columns. -/
def mergeLeft (paxs : List PaxRow) (a : ASRFRow) : List MergedRow :=
  match paxs.filter (paxMatch a) with
  | [] => [⟨a.flightID, a.source, a.dest, a.flightSchDept, a.airCraftType, a.departedWeight, none⟩]
  | ms => ms.map (fun p =>
      ⟨a.flightID, a.source, a.dest, a.flightSchDept, a.airCraftType, a.departedWeight, some p.cols⟩)

/-- Round half to even, the rounding of `Series.round(0)` (numpy
rounding) used at line 192. -/
def roundHalfEven (x : ℚ) : Int :=
  if x - ⌊x⌋ < 1/2 then ⌊x⌋
  else if 1/2 < x - ⌊x⌋ then ⌊x⌋ + 1
  else if ⌊x⌋ % 2 = 0 then ⌊x⌋ else ⌊x⌋ + 1

/-- A merged row after `dropna(subset=[ExpectedPAXCount])` (line 184)
together with the derived columns of lines 186-192. -/
structure ActualDataRow where
  flightID : String
  source : String
  dest : String
  flightSchDept : Date
  airCraftType : Option String
  departedWeight : Option ℚ
  paxCols : PaxCols
  totalCargo : ℚ
  baggageVolume : ℚ
  reportVolume : ℚ
deriving DecidableEq, Repr

/-- The derived columns of lines 186-192 on one surviving merged row:
`TOTAL CARGO = DepartedWeight.fillna(0) + Underload.fillna(0)`,
`BaggageVolume = ExpectedPAXCount * AVGBagPerPAX * 0.067`, and
`ReportVolume = (CapacityVolumeHold - BaggageVolume).round(0)`. -/
def computeDerived (m : MergedRow) (p : PaxCols) : ActualDataRow :=
  let totalCargo := m.departedWeight.getD 0 + p.underload.getD 0
  let baggageVolume := p.expectedPAXCount * p.avgBagPerPAX * (67/1000)
  let reportVolume : ℚ := (roundHalfEven (p.capacityVolumeHold - baggageVolume) : ℚ)
  ⟨m.flightID, m.source, m.dest, m.flightSchDept, m.airCraftType, m.departedWeight,
    p, totalCargo, baggageVolume, reportVolume⟩

/-- The actuals side of the fetch (lines 166-192): schedule query,
left merge with the passenger query, `dropna` on ExpectedPAXCount, and
the derived columns. -/
def actualData (db : Database) (origin destination f_no : String)
    (fifteen_days_before : Date) : List ActualDataRow :=
  ((fetchASRF db origin destination f_no fifteen_days_before).flatMap
      (mergeLeft (fetchPax db fifteen_days_before))).filterMap
    (fun m => m.paxCols.map (computeDerived m))

/-- The `Data_From` tag assigned at lines 215 and 229. -/
inductive Prov where
  | actual
  | pred
deriving DecidableEq, Repr

/-- The tag string written into the `Data_From` column. -/
def Prov.tag : Prov → String
  | .actual => "Actual"
  | .pred => "Pred"

/-- A row of `combined_df` (line 232): the renamed common columns
`FltNo, Date, Origin, Destination, Weight, Volume, Data_From`. -/
structure CargoRecord where
  fltNo : String
  date : Date
  origin : String
  destination : String
  weight : ℚ
  volume : ℚ
  dataFrom : Prov
deriving DecidableEq, Repr

/-- The forecast stream `pred_filtered` (lines 158-159, 199, 207-215):
the whole CapacityTransaction table, filtered in pandas by flight
number (line 199) and then by `current_date <= FltDate <= f_date_dt`
(line 207), renamed and tagged `Pred`.  No filter on origin or
destination is ever applied. -/
def pred_filtered (db : Database) (f_no : String)
    (current_date f_date_dt : Date) : List CargoRecord :=
  (((db.capacityTransaction.filter (fun r => r.fltNo == f_no)).filter
      (fun r => decide (current_date ≤ r.fltDate) && decide (r.fltDate ≤ f_date_dt))).map
    (fun r => ⟨r.fltNo, r.fltDate, r.origin, r.destination, r.reportWeight, r.reportVolume, .pred⟩))

/-- The actuals stream `asrf_filtered` (lines 200, 218-229): the
actual-data rows re-filtered by flight number (line 200) and by
`start_date <= FlightSchDept < current_date` (line 218), renamed and
tagged `Actual`. -/
def asrf_filtered (db : Database) (origin destination f_no : String)
    (fifteen_days_before start_date current_date : Date) : List CargoRecord :=
  ((((actualData db origin destination f_no fifteen_days_before).filter
        (fun r => r.flightID == f_no)).filter
      (fun r => decide (start_date ≤ r.flightSchDept) && decide (r.flightSchDept < current_date))).map
    (fun r => ⟨r.flightID, r.flightSchDept, r.source, r.dest, r.totalCargo, r.reportVolume, .actual⟩))

/-- `combined_df` (line 232): concatenation of the two streams sorted
by date. -/
def combined_df (db : Database) (origin destination f_no : String)
    (fifteen_days_before start_date current_date f_date_dt : Date) : List CargoRecord :=
  (pred_filtered db f_no current_date f_date_dt ++
    asrf_filtered db origin destination f_no fifteen_days_before start_date current_date).insertionSort
    (fun a b => a.date ≤ b.date)

/-- A row of the grouped frame `daily_data` (line 235): one (date,
provenance) key with its summed weight and volume. -/
structure GroupedRow where
  date : Date
  dataFrom : Prov
  weight : ℚ
  volume : ℚ
deriving DecidableEq, Repr

/-- Projection of a combined row to the grouping columns. -/
def CargoRecord.toGrouped (r : CargoRecord) : GroupedRow :=
  ⟨r.date, r.dataFrom, r.weight, r.volume⟩

/-- The groupby key `(Date, Data_From)`. -/
def GroupedRow.key (g : GroupedRow) : Date × Prov := (g.date, g.dataFrom)

/-- Sort position of a provenance tag: pandas sorts group keys, and
the tag strings satisfy Actual < Pred. -/
def provIdx : Prov → Nat
  | .actual => 0
  | .pred => 1

/-- Lexicographic order on groupby keys, matching the sorted index of
`daily_data`. -/
def keyLe (a b : Date × Prov) : Prop :=
  a.1 < b.1 ∨ (a.1 = b.1 ∧ provIdx a.2 ≤ provIdx b.2)

instance : DecidableRel keyLe := fun a b => by
  unfold keyLe; infer_instance

instance : IsTotal (Date × Prov) keyLe := by
  refine ⟨fun a b => ?_⟩
  unfold keyLe
  rcases lt_trichotomy a.1 b.1 with h | h | h
  · exact Or.inl (Or.inl h)
  · rcases Nat.le_total (provIdx a.2) (provIdx b.2) with hp | hp
    · exact Or.inl (Or.inr ⟨h, hp⟩)
    · exact Or.inr (Or.inr ⟨h.symm, hp⟩)
  · exact Or.inr (Or.inl h)

instance : IsTrans (Date × Prov) keyLe := by
  refine ⟨fun a b c hab hbc => ?_⟩
  unfold keyLe at hab hbc ⊢
  rcases hab with h1 | ⟨h1, h1p⟩ <;> rcases hbc with h2 | ⟨h2, h2p⟩
  · exact Or.inl (lt_trans h1 h2)
  · exact Or.inl (h2 ▸ h1)
  · exact Or.inl (h1 ▸ h2)
  · exact Or.inr ⟨h1.trans h2, le_trans h1p h2p⟩

/-- The sorted key column of `daily_data`: the distinct groupby keys
of the rows in ascending order. -/
def groupKeys (g : List GroupedRow) : List (Date × Prov) :=
  ((g.map GroupedRow.key).dedup).insertionSort keyLe

/-- One pass of `groupby([Date, Data_From])[[Weight, Volume]].sum()`
(line 235): the distinct keys in sorted order, each with the sums of
the rows in its group. -/
def groupSum (g : List GroupedRow) : List GroupedRow :=
  (groupKeys g).map
    (fun k => ⟨k.1, k.2,
      ((g.filter (fun r => r.key = k)).map (fun r => r.weight)).sum,
      ((g.filter (fun r => r.key = k)).map (fun r => r.volume)).sum⟩)

/-- The reconcile step: `combined_df` projected to the grouping
columns and grouped-summed into `daily_data` (line 235). -/
def reconcile (rows : List CargoRecord) : List GroupedRow :=
  groupSum (rows.map CargoRecord.toGrouped)

/-- Whether a provenance value occurs at all among the rows: after
`unstack()` this is exactly the test `p.tag in daily_data[metric]`
used at lines 246, 257, 268, 284, 295, 306 and 322-324. -/
def hasProv (rows : List CargoRecord) (p : Prov) : Bool :=
  rows.any (fun r => r.dataFrom == p)

/-- The two value columns of `combined_df`. -/
inductive Metric where
  | weight
  | volume
deriving DecidableEq, Repr

/-- Column selection for a metric. -/
def CargoRecord.metricVal : Metric → CargoRecord → ℚ
  | .weight, r => r.weight
  | .volume, r => r.volume

/-- The rows of one groupby group. -/
def groupRows (rows : List CargoRecord) (d : Date) (p : Prov) : List CargoRecord :=
  rows.filter (fun r => r.date == d && r.dataFrom == p)

/-- One cell of the unstacked `daily_data` frame: the summed metric
for a (date, provenance) pair, or NaN (`none`) when the pair has no
rows. -/
def cellAt (rows : List CargoRecord) (m : Metric) (d : Date) (p : Prov) : Option ℚ :=
  match groupRows rows d p with
  | [] => none
  | gs => some ((gs.map (CargoRecord.metricVal m)).sum)

/-- The sorted index of `daily_data`: every date appearing in
`combined_df`, deduplicated and in ascending order. -/
def allDates (rows : List CargoRecord) : List Date :=
  ((rows.map (fun r => r.date)).dedup).insertionSort (fun a b => a ≤ b)

/-- A full column of the unstacked frame over the whole index, NaN
cells included: e.g. `daily_data[Weight][Actual]`. -/
def fullSeries (rows : List CargoRecord) (m : Metric) (p : Prov) :
    List (Date × Option ℚ) :=
  (allDates rows).map (fun d => (d, cellAt rows m d p))

/-- A column after `.dropna()` (lines 269-270, 307-308): the NaN
entries removed, keeping index order. -/
def dropnaSeries (rows : List CargoRecord) (m : Metric) (p : Prov) :
    List (Date × ℚ) :=
  (fullSeries rows m p).filterMap (fun e => e.2.map (fun v => (e.1, v)))

/-- A scatter trace of the figure: its legend name, x data, y data
(NaN cells as `none`) and the axis it is bound to. -/
structure Trace where
  name : String
  xs : List Date
  ys : List (Option ℚ)
  yaxis : String
deriving DecidableEq, Repr

/-- The vertical line added under `shapes` at lines 358-369. -/
structure Shape where
  x0 : Date
  x1 : Date
  y0 : ℚ
  y1 : ℚ
deriving DecidableEq, Repr

/-- The text label added under `annotations` at lines 370-382. -/
structure Annot where
  x : Date
  y : ℚ
  text : String
deriving DecidableEq, Repr

/-- The parts of the plotly figure that the pipeline computes. -/
structure Figure where
  traces : List Trace
  shapes : List Shape
  annotations : List Annot
deriving DecidableEq, Repr

/-- Legend names of the four main traces (lines 251, 262, 289, 300). -/
def provName : Metric → Prov → String
  | .weight, .actual => "Actual Weight"
  | .weight, .pred => "Predicted Weight"
  | .volume, .actual => "Actual Volume"
  | .volume, .pred => "Predicted Volume"

/-- Names of the two bridge traces (lines 276, 314). -/
def transitionName : Metric → String
  | .weight => "Weight Transition"
  | .volume => "Volume Transition"

/-- Axis binding per metric: weight on the primary axis, volume on the
secondary axis. -/
def axisName : Metric → String
  | .weight => "y1"
  | .volume => "y2"

/-- The main traces for one metric (lines 246-265 for weight, 284-303
for volume): one trace per provenance present, plotted over the whole
index with NaN cells. -/
def mainTraces (rows : List CargoRecord) (m : Metric) : List Trace :=
  (if hasProv rows .actual then
    [⟨provName m .actual, allDates rows, (fullSeries rows m .actual).map (fun e => e.2),
      axisName m⟩] else []) ++
  (if hasProv rows .pred then
    [⟨provName m .pred, allDates rows, (fullSeries rows m .pred).map (fun e => e.2),
      axisName m⟩] else [])

/-- The bridge trace for one metric (lines 267-280 for weight,
305-318 for volume): present when both provenances occur and both
dropna series are non-empty, connecting the last actual entry to the
first predicted entry. -/
def bridgeTraces (rows : List CargoRecord) (m : Metric) : List Trace :=
  if hasProv rows .actual && hasProv rows .pred then
    match (dropnaSeries rows m .actual).getLast?, (dropnaSeries rows m .pred).head? with
    | some la, some fp =>
        [⟨transitionName m, [la.1, fp.1], [some la.2, some fp.2], axisName m⟩]
    | _, _ => []
  else []

/-- Maximum of a non-empty pandas series (`.max()` with NaN skipped);
the `[]` case is never reached by the callers. -/
def seriesMax (l : List ℚ) : ℚ :=
  match l with
  | [] => 0
  | x :: xs => xs.foldl max x

/-- The `max_weight` computation of lines 320-326: starting from 0,
fold in the maximum of each weight column that exists and is
non-empty, then add the 2000-unit padding. -/
def max_weight (rows : List CargoRecord) : ℚ :=
  let m0 : ℚ := 0
  let m1 := if hasProv rows .actual && !(allDates rows).isEmpty then
      max m0 (seriesMax ((dropnaSeries rows .weight .actual).map (fun e => e.2))) else m0
  let m2 := if hasProv rows .pred && !(allDates rows).isEmpty then
      max m1 (seriesMax ((dropnaSeries rows .weight .pred).map (fun e => e.2))) else m1
  m2 + 2000

/-- The figure built at lines 242-386: the traces in source order
(weight block, weight bridge, volume block, volume bridge), the
unconditional vertical line at `current_date` from 0 to `max_weight`,
and the unconditional Today label at `(current_date, max_weight)`. -/
def buildFigure (rows : List CargoRecord) (current_date : Date) : Figure :=
  { traces := mainTraces rows .weight ++ bridgeTraces rows .weight ++
      mainTraces rows .volume ++ bridgeTraces rows .volume
    shapes := [⟨current_date, current_date, 0, max_weight rows⟩]
    annotations := [⟨current_date, max_weight rows, "Today"⟩] }

/-- The value returned by the `update_graph` callback: one of the
three placeholder divs or the graph component. -/
inductive Output where
  | waiting
  | noData
  | errorDiv (msg : String)
  | chart (fig : Figure)
deriving DecidableEq, Repr

/-- The text of a placeholder output (charts carry no text). -/
def Output.text : Output → String
  | .waiting => "Waiting for flight data..."
  | .noData => "No data found for the specified parameters"
  | .errorDiv m => m
  | .chart _ => ""

/-- The `update_graph` callback (app.py lines 134-401).  The
completeness check of line 142 precedes the `try` block, so an
incomplete query short-circuits everything.  Inside the `try`, the
date parse of line 149 and the database connection and reads are
modelled by `Except` arguments whose error carries the exception text;
either failure is caught at line 400 and rendered as an error div.
Otherwise the pipeline runs with `day_of_query = today`,
`fifteen_days_before = today - 15` (line 155) and
`start_date = f_date_dt - 15` (line 196), answers the no-data div when
`daily_data` is empty (line 238), and builds the figure. -/
def update_graph (store : FlightQuery) (today : Date)
    (parse_f_date : Except String Date) (connection : Except String Database) : Output :=
  if !store.complete then .waiting
  else
    match parse_f_date with
    | .error e => .errorDiv ("Error: " ++ e)
    | .ok f_date_dt =>
      match connection with
      | .error e => .errorDiv ("Error: " ++ e)
      | .ok db =>
        let day_of_query := today
        let fifteen_days_before := day_of_query - 15
        let start_date := f_date_dt - 15
        let rows := combined_df db store.flight_origin store.flight_destination
            store.flight_no fifteen_days_before start_date day_of_query f_date_dt
        if rows.isEmpty then .noData
        else .chart (buildFigure rows day_of_query)

/-- Substring containment, used to state that an error div carries the
exception text. -/
def containsStr (s t : String) : Prop := ∃ a b, s = a ++ t ++ b

/-- A small concrete database used by the concrete witnesses: one
forecast row, one passenger row, one matching schedule row and one
schedule row with an excluded aircraft type. -/
def sampleDb : Database :=
  ⟨[⟨"F1", 11, "XXX", "YYY", 500, 60⟩],
   [⟨"F1", "DEL", "BOM", 5, ⟨10, 2, some 50, 300⟩⟩],
   [⟨"F1", "DEL", "BOM", 5, some "B737", some 100⟩,
    ⟨"F1", "DEL", "BOM", 6, some "ATR", some 1⟩]⟩

/-- The single actual-data row the sample database produces:
total cargo 100 + 50, baggage volume 10 * 2 * 0.067 = 1.34, reported
volume round(300 - 1.34) = 299. -/
def sampleRow : ActualDataRow :=
  ⟨"F1", "DEL", "BOM", 5, some "B737", some 100, ⟨10, 2, some 50, 300⟩, 150, 67/50, 299⟩

/-- The actual record the sample database contributes to
`combined_df` with today = 10 and query date 20. -/
def sampleRecA : CargoRecord := ⟨"F1", 5, "DEL", "BOM", 150, 299, .actual⟩

/-- The forecast record the sample database contributes to
`combined_df` with today = 10 and query date 20. -/
def sampleRecP : CargoRecord := ⟨"F1", 11, "XXX", "YYY", 500, 60, .pred⟩

/-- Evaluation of the actuals fetch on the sample database. -/
theorem actualData_sample :
    actualData sampleDb "DEL" "BOM" "F1" (-5) = [sampleRow] := by
  norm_num +decide [actualData, sampleDb, sampleRow, fetchASRF, fetchPax, asrfWhere,
    badAircraftTypes, mergeLeft, paxMatch, computeDerived, roundHalfEven,
    List.filterMap_cons, List.filterMap_nil]

/-- Evaluation of the actuals stream on the sample database. -/
theorem asrf_filtered_sample :
    asrf_filtered sampleDb "DEL" "BOM" "F1" (-5) 5 10 = [sampleRecA] := by
  rw [asrf_filtered, actualData_sample]
  norm_num +decide [sampleRow, sampleRecA]

/-- Evaluation of the forecast stream on the sample database. -/
theorem pred_filtered_sample :
    pred_filtered sampleDb "F1" 10 20 = [sampleRecP] := by
  norm_num +decide [pred_filtered, sampleDb, sampleRecP]

/-- Evaluation of `combined_df` on the sample database with today =
10 and query date 20: the actual record then the forecast record. -/
theorem combined_sample :
    combined_df sampleDb "DEL" "BOM" "F1" (-5) 5 10 20 = [sampleRecA, sampleRecP] := by
  rw [combined_df, pred_filtered_sample, asrf_filtered_sample]
  norm_num [List.insertionSort, List.orderedInsert, sampleRecA, sampleRecP]

/-- Unfolding of the schedule-query WHERE clause. -/
theorem asrfWhere_eq_true {origin destination f_no : String} {fdb : Date} {a : ASRFRow}
    (h : asrfWhere origin destination f_no fdb a = true) :
    a.source = origin ∧ a.dest = destination ∧ a.flightID = f_no ∧
      (∃ t, a.airCraftType = some t ∧ t ∉ badAircraftTypes) ∧ fdb ≤ a.flightSchDept := by
  unfold asrfWhere at h
  simp only [Bool.and_eq_true, beq_iff_eq, decide_eq_true_eq] at h
  obtain ⟨⟨⟨⟨h1, h2⟩, h3⟩, h4⟩, h5⟩ := h
  refine ⟨h1, h2, h3, ?_, h5⟩
  cases hat : a.airCraftType with
  | none => rw [hat] at h4; cases h4
  | some t =>
      rw [hat] at h4
      refine ⟨t, rfl, ?_⟩
      simpa using h4

/-- Every row of `actualData` originates in a schedule row that passed
the WHERE clause, copies its key columns and aircraft type, and
carries the derived columns of lines 186-192. -/
theorem actualData_mem {db : Database} {origin destination f_no : String} {fdb : Date}
    {r : ActualDataRow} (h : r ∈ actualData db origin destination f_no fdb) :
    ∃ a ∈ db.scheduleRouteForecast,
      asrfWhere origin destination f_no fdb a = true ∧
      r.flightID = a.flightID ∧ r.source = a.source ∧ r.dest = a.dest ∧
      r.flightSchDept = a.flightSchDept ∧ r.airCraftType = a.airCraftType ∧
      r.departedWeight = a.departedWeight ∧
      r.totalCargo = r.departedWeight.getD 0 + r.paxCols.underload.getD 0 ∧
      r.baggageVolume = r.paxCols.expectedPAXCount * r.paxCols.avgBagPerPAX * (67/1000) ∧
      r.reportVolume = (roundHalfEven (r.paxCols.capacityVolumeHold - r.baggageVolume) : ℚ) := by
  unfold actualData at h
  simp only [List.mem_filterMap, List.mem_flatMap] at h
  obtain ⟨m, ⟨a, ha, hm⟩, hr⟩ := h
  obtain ⟨haT, haW⟩ := List.mem_filter.mp ha
  rw [Option.map_eq_some'] at hr
  obtain ⟨p, hp, hr⟩ := hr
  refine ⟨a, haT, haW, ?_⟩
  have hfields : m.flightID = a.flightID ∧ m.source = a.source ∧ m.dest = a.dest ∧
      m.flightSchDept = a.flightSchDept ∧ m.airCraftType = a.airCraftType ∧
      m.departedWeight = a.departedWeight := by
    unfold mergeLeft at hm
    rcases hflt : (fetchPax db fdb).filter (paxMatch a) with _ | ⟨q, qs⟩ <;>
      rw [hflt] at hm
    · simp only [List.mem_singleton] at hm
      subst hm; exact ⟨rfl, rfl, rfl, rfl, rfl, rfl⟩
    · simp only [List.mem_map, List.mem_cons] at hm
      obtain ⟨q', _, hm⟩ := hm
      subst hm; exact ⟨rfl, rfl, rfl, rfl, rfl, rfl⟩
  subst hr
  refine ⟨?_, ?_, ?_, ?_, ?_, ?_, ?_, ?_, ?_⟩ <;>
    simp [computeDerived, hfields.1, hfields.2.1, hfields.2.2.1, hfields.2.2.2.1,
      hfields.2.2.2.2.1, hfields.2.2.2.2.2]

/-- Every record of the forecast stream carries the `Pred` tag, the
requested flight number and a date in the window, and originates in a
forecast-table row with the same origin and destination columns
(which are never compared with the query). -/
theorem pred_filtered_mem {db : Database} {f_no : String} {current_date f_date_dt : Date}
    {r : CargoRecord} (h : r ∈ pred_filtered db f_no current_date f_date_dt) :
    r.dataFrom = .pred ∧ r.fltNo = f_no ∧ current_date ≤ r.date ∧ r.date ≤ f_date_dt := by
  unfold pred_filtered at h
  simp only [List.mem_map, List.mem_filter, Bool.and_eq_true, beq_iff_eq,
    decide_eq_true_eq] at h
  obtain ⟨c, ⟨⟨_, hno⟩, hd1, hd2⟩, rfl⟩ := h
  exact ⟨rfl, hno, hd1, hd2⟩

/-- Every record of the actuals stream carries the `Actual` tag, the
requested flight number, origin and destination, a date in both date
windows, and a non-excluded aircraft type on its source row. -/
theorem asrf_filtered_mem {db : Database} {origin destination f_no : String}
    {fdb start_date current_date : Date} {r : CargoRecord}
    (h : r ∈ asrf_filtered db origin destination f_no fdb start_date current_date) :
    r.dataFrom = .actual ∧ r.fltNo = f_no ∧ r.origin = origin ∧ r.destination = destination ∧
      start_date ≤ r.date ∧ r.date < current_date ∧ fdb ≤ r.date := by
  unfold asrf_filtered at h
  simp only [List.mem_map, List.mem_filter, Bool.and_eq_true, beq_iff_eq,
    decide_eq_true_eq] at h
  obtain ⟨x, ⟨⟨hx, hno⟩, hd1, hd2⟩, rfl⟩ := h
  obtain ⟨a, _, hW, _, hsrc, hdst, hdept, _⟩ := actualData_mem hx
  obtain ⟨hao, had, _, _, hafd⟩ := asrfWhere_eq_true hW
  refine ⟨rfl, hno, ?_, ?_, hd1, hd2, ?_⟩
  · simpa [hsrc] using hao
  · simpa [hdst] using had
  · simpa [hdept] using hafd

/-- C1: for every stored FlightQuery with at least one of the four
fields empty, the refresh callback returns the waiting placeholder
whatever the date parse and the fetch would produce, and the result
does not depend on the fetch at all (no fetch is performed: the
completeness check at line 142 precedes the `try` block that opens the
connection). -/
theorem update_graph_incomplete_waiting (store : FlightQuery) (today : Date)
    (p₁ p₂ : Except String Date) (c₁ c₂ : Except String Database)
    (h : store.flight_no = "" ∨ store.flight_date = "" ∨ store.flight_origin = "" ∨
      store.flight_destination = "") :
    update_graph store today p₁ c₁ = .waiting ∧
      update_graph store today p₁ c₁ = update_graph store today p₂ c₂ := by
  have hc : store.complete = false := by
    unfold FlightQuery.complete
    rcases h with h | h | h | h <;> simp [h]
  constructor <;> simp [update_graph, hc]

/-- Witness for C1 at a concrete incomplete query. -/
theorem update_graph_incomplete_waiting_witness :
    update_graph ⟨"", "2024-01-01", "DEL", "BOM"⟩ 10 (.ok 20) (.ok ⟨[], [], []⟩) = .waiting :=
  (update_graph_incomplete_waiting ⟨"", "2024-01-01", "DEL", "BOM"⟩ 10
    (.ok 20) (.error "boom") (.ok ⟨[], [], []⟩) (.error "down") (Or.inl rfl)).1

/-- C8: the `/update-data` handler overwrites the store wholesale on
any parsed body, storing each present key as given and defaulting each
missing key to the empty string except the flight date, which defaults
to the ISO date of today, answering 200 success; on a body that fails
to parse the store is unchanged and the answer is 400 error carrying
the exception message. -/
theorem update_data_spec (store : FlightQuery) (todayIso : String)
    (body : Except String UpdateBody) :
    (∀ b, body = .ok b →
      update_data store todayIso body =
        (⟨b.flight_no.getD "", b.flight_date.getD todayIso,
          b.flight_origin.getD "", b.flight_destination.getD ""⟩,
         ⟨"success", "Data received successfully", 200⟩)) ∧
    (∀ e, body = .error e →
      update_data store todayIso body = (store, ⟨"error", e, 400⟩)) := by
  constructor
  · rintro b rfl; rfl
  · rintro e rfl; rfl

/-- Witness for C8: the body of the spec example, holding only
`flight_no`, and a failing body. -/
theorem update_data_spec_witness :
    update_data ⟨"AB", "2024-01-01", "DEL", "BOM"⟩ "2026-10-12"
        (.ok ⟨some "XY1", none, none, none⟩) =
      (⟨"XY1", "2026-10-12", "", ""⟩, ⟨"success", "Data received successfully", 200⟩) ∧
    update_data ⟨"AB", "2024-01-01", "DEL", "BOM"⟩ "2026-10-12" (.error "parse failure") =
      (⟨"AB", "2024-01-01", "DEL", "BOM"⟩, ⟨"error", "parse failure", 400⟩) :=
  ⟨(update_data_spec ⟨"AB", "2024-01-01", "DEL", "BOM"⟩ "2026-10-12"
      (.ok ⟨some "XY1", none, none, none⟩)).1 _ rfl,
    (update_data_spec ⟨"AB", "2024-01-01", "DEL", "BOM"⟩ "2026-10-12"
      (.error "parse failure")).2 _ rfl⟩

/-- C9: once the completeness check has passed, every failure inside
the refresh tick (date parse or fetch, the two failure points of the
`try` block) is caught and rendered as an error div whose text
contains the exception message; `update_graph` is a total function, so
nothing propagates to the timer. -/
theorem update_graph_catches_errors (store : FlightQuery) (today d : Date)
    (c : Except String Database) (e : String) (h : store.complete = true) :
    update_graph store today (.error e) c = .errorDiv ("Error: " ++ e) ∧
    update_graph store today (.ok d) (.error e) = .errorDiv ("Error: " ++ e) ∧
    containsStr (Output.text (.errorDiv ("Error: " ++ e))) e := by
  refine ⟨by simp [update_graph, h], by simp [update_graph, h], "Error: ", "", ?_⟩
  simp [Output.text]

/-- Witness for C9 at a complete query and a concrete exception. -/
theorem update_graph_catches_errors_witness :
    update_graph ⟨"F1", "2024-01-10", "DEL", "BOM"⟩ 10 (.error "db down") (.ok ⟨[], [], []⟩) =
      .errorDiv "Error: db down" :=
  (update_graph_catches_errors ⟨"F1", "2024-01-10", "DEL", "BOM"⟩ 10 20
    (.ok ⟨[], [], []⟩) "db down" (by decide)).1

/-- Round-half-to-even always returns a nearest integer. -/
theorem roundHalfEven_nearest (x : ℚ) (n : Int) :
    |x - (roundHalfEven x : ℚ)| ≤ |x - (n : ℚ)| := by
  have hf : ((⌊x⌋ : Int) : ℚ) ≤ x := Int.floor_le x
  have hf1 : x < (⌊x⌋ : ℚ) + 1 := Int.lt_floor_add_one x
  have key : min (x - (⌊x⌋ : ℚ)) (1 - (x - (⌊x⌋ : ℚ))) ≤ |x - (n : ℚ)| := by
    rcases le_or_lt (n : ℚ) ((⌊x⌋ : Int) : ℚ) with hn | hn
    · calc min (x - (⌊x⌋ : ℚ)) (1 - (x - (⌊x⌋ : ℚ))) ≤ x - (⌊x⌋ : ℚ) := min_le_left _ _
        _ ≤ x - (n : ℚ) := by linarith
        _ ≤ |x - (n : ℚ)| := le_abs_self _
    · have hn' : ((⌊x⌋ : Int) : ℚ) + 1 ≤ (n : ℚ) := by
        have h1 : ⌊x⌋ < n := by exact_mod_cast hn
        have h2 : ⌊x⌋ + 1 ≤ n := h1
        exact_mod_cast h2
      calc min (x - (⌊x⌋ : ℚ)) (1 - (x - (⌊x⌋ : ℚ))) ≤ 1 - (x - (⌊x⌋ : ℚ)) := min_le_right _ _
        _ ≤ (n : ℚ) - x := by linarith
        _ = -(x - (n : ℚ)) := by ring
        _ ≤ |x - (n : ℚ)| := neg_le_abs _
  unfold roundHalfEven
  split_ifs with h1 h2 h3
  · have habs : |x - ((⌊x⌋ : Int) : ℚ)| = x - (⌊x⌋ : ℚ) := abs_of_nonneg (by linarith)
    rw [habs]
    refine le_trans ?_ key
    rw [min_eq_left (by linarith)]
  · have habs : |x - ((((⌊x⌋ : Int) + 1 : Int)) : ℚ)| = 1 - (x - (⌊x⌋ : ℚ)) := by
      push_cast
      rw [abs_of_nonpos (by linarith)]
      ring
    rw [habs]
    refine le_trans ?_ key
    rw [min_eq_right (by linarith)]
  · have heq : x - (⌊x⌋ : ℚ) = 1/2 := le_antisymm (not_lt.mp h2) (not_lt.mp h1)
    have habs : |x - ((⌊x⌋ : Int) : ℚ)| = 1/2 := by
      rw [abs_of_nonneg (by linarith)]; exact heq
    rw [habs]
    refine le_trans ?_ key
    rw [heq]
    norm_num
  · have heq : x - (⌊x⌋ : ℚ) = 1/2 := le_antisymm (not_lt.mp h2) (not_lt.mp h1)
    have habs : |x - ((((⌊x⌋ : Int) + 1 : Int)) : ℚ)| = 1/2 := by
      push_cast
      rw [abs_of_nonpos (by linarith)]
      linarith
    rw [habs]
    refine le_trans ?_ key
    rw [heq]
    norm_num

/-- C5: on every joined actual-data row, total cargo weight is
departed weight (0 when NULL) plus underload (0 when NULL), baggage
volume is expected passenger count times average bags per passenger
times 0.067, and reported volume is hold capacity volume minus baggage
volume rounded to a nearest whole unit (half-to-even, as numpy
rounds). -/
theorem actualData_derived_metrics (db : Database) (origin destination f_no : String)
    (fdb : Date) :
    ∀ r ∈ actualData db origin destination f_no fdb,
      r.totalCargo = r.departedWeight.getD 0 + r.paxCols.underload.getD 0 ∧
      r.baggageVolume = r.paxCols.expectedPAXCount * r.paxCols.avgBagPerPAX * (67/1000) ∧
      r.reportVolume = (roundHalfEven (r.paxCols.capacityVolumeHold - r.baggageVolume) : ℚ) ∧
      ∀ n : Int, |r.paxCols.capacityVolumeHold - r.baggageVolume - r.reportVolume| ≤
        |r.paxCols.capacityVolumeHold - r.baggageVolume - (n : ℚ)| := by
  intro r hr
  obtain ⟨a, _, _, _, _, _, _, _, _, h1, h2, h3⟩ := actualData_mem hr
  refine ⟨h1, h2, h3, ?_⟩
  intro n
  rw [h3]
  exact roundHalfEven_nearest (r.paxCols.capacityVolumeHold - r.baggageVolume) n

/-- Witness for C5 on the sample database: capacity 300, 10 expected
passengers with 2 bags each, baggage volume 1.34, reported volume
round(298.66) = 299, total cargo 100 + 50. -/
theorem actualData_derived_metrics_witness :
    sampleRow ∈ actualData sampleDb "DEL" "BOM" "F1" (-5) ∧
    |(300 : ℚ) - 67/50 - 299| ≤ |(300 : ℚ) - 67/50 - ((300 : Int) : ℚ)| := by
  have hmem : sampleRow ∈ actualData sampleDb "DEL" "BOM" "F1" (-5) := by
    rw [actualData_sample]; exact List.mem_singleton_self _
  refine ⟨hmem, ?_⟩
  have h := (actualData_derived_metrics sampleDb "DEL" "BOM" "F1" (-5)
    sampleRow hmem).2.2.2 300
  simpa [sampleRow] using h

/-- C3: every record reaching the reconciler tagged `Actual` has a
date strictly before today, and every record tagged `Pred` has a date
at or after today and at most the query date (here `current_date` and
`f_date_dt` as `update_graph` passes them). -/
theorem combined_provenance (db : Database) (origin destination f_no : String)
    (fdb start_date current_date f_date_dt : Date) :
    ∀ r ∈ combined_df db origin destination f_no fdb start_date current_date f_date_dt,
      (r.dataFrom = .actual → r.date < current_date) ∧
      (r.dataFrom = .pred → current_date ≤ r.date ∧ r.date ≤ f_date_dt) := by
  intro r hr
  rw [combined_df, List.mem_insertionSort, List.mem_append] at hr
  rcases hr with hp | ha
  · obtain ⟨htag, _, hd1, hd2⟩ := pred_filtered_mem hp
    refine ⟨fun hc => ?_, fun _ => ⟨hd1, hd2⟩⟩
    rw [htag] at hc
    cases hc
  · obtain ⟨htag, _, _, _, _, hd2, _⟩ := asrf_filtered_mem ha
    refine ⟨fun _ => hd2, fun hc => ?_⟩
    rw [htag] at hc
    cases hc

/-- Witness for C3 on the sample database, with today = 10 and query
date 20. -/
theorem combined_provenance_witness :
    sampleRecP ∈ combined_df sampleDb "DEL" "BOM" "F1" (-5) 5 10 20 ∧
    ((10 : Date) ≤ sampleRecP.date ∧ sampleRecP.date ≤ 20) := by
  have hmem : sampleRecP ∈ combined_df sampleDb "DEL" "BOM" "F1" (-5) 5 10 20 := by
    rw [combined_sample]; simp
  exact ⟨hmem, (combined_provenance sampleDb "DEL" "BOM" "F1" (-5) 5 10 20
    sampleRecP hmem).2 rfl⟩

/-- Counterexample to C7: on the sample database the forecast-table
row with origin XXX and destination YYY reaches the reconciler even
though the query asked for DEL to BOM — the forecast query is never
filtered by origin or destination. -/
theorem combined_unfiltered_counterexample :
    sampleRecP ∈ combined_df sampleDb "DEL" "BOM" "F1" (-5) 5 10 20 ∧
    sampleRecP.origin ≠ "DEL" ∧ sampleRecP.destination ≠ "BOM" := by
  refine ⟨?_, by decide, by decide⟩
  rw [combined_sample]
  simp

/-- C7 as amended: records of the actuals stream match the query
flight number, origin and destination and lie in both date windows;
records of the forecast stream match the flight number and lie in the
[today, query date] window, but carry whatever origin and destination
their table row has — the forecast query selects the whole table and
is filtered afterwards only by flight number and date. -/
theorem combined_filtering (db : Database) (origin destination f_no : String)
    (fdb start_date current_date f_date_dt : Date) :
    ∀ r ∈ combined_df db origin destination f_no fdb start_date current_date f_date_dt,
      (r.dataFrom = .actual → r.fltNo = f_no ∧ r.origin = origin ∧ r.destination = destination ∧
        start_date ≤ r.date ∧ r.date < current_date ∧ fdb ≤ r.date) ∧
      (r.dataFrom = .pred → r.fltNo = f_no ∧ current_date ≤ r.date ∧ r.date ≤ f_date_dt) := by
  intro r hr
  rw [combined_df, List.mem_insertionSort, List.mem_append] at hr
  rcases hr with hp | ha
  · obtain ⟨htag, hno, hd1, hd2⟩ := pred_filtered_mem hp
    refine ⟨fun hc => ?_, fun _ => ⟨hno, hd1, hd2⟩⟩
    rw [htag] at hc
    cases hc
  · obtain ⟨htag, hno, ho, hde, hd1, hd2, hd3⟩ := asrf_filtered_mem ha
    refine ⟨fun _ => ⟨hno, ho, hde, hd1, hd2, hd3⟩, fun hc => ?_⟩
    rw [htag] at hc
    cases hc

/-- Witness for the amended C7 at the sample actual record. -/
theorem combined_filtering_witness :
    sampleRecA ∈ combined_df sampleDb "DEL" "BOM" "F1" (-5) 5 10 20 ∧
    (sampleRecA.fltNo = "F1" ∧ sampleRecA.origin = "DEL" ∧ sampleRecA.destination = "BOM" ∧
      (5 : Date) ≤ sampleRecA.date ∧ sampleRecA.date < 10 ∧ (-5 : Date) ≤ sampleRecA.date) := by
  have hmem : sampleRecA ∈ combined_df sampleDb "DEL" "BOM" "F1" (-5) 5 10 20 := by
    rw [combined_sample]; simp
  exact ⟨hmem, (combined_filtering sampleDb "DEL" "BOM" "F1" (-5) 5 10 20
    sampleRecA hmem).1 rfl⟩

/-- C10: every record of the actuals stream is the projection of a
fetched actual-data row whose aircraft type is non-null and not one of
323, 32S or ATR; and schedule rows with a null or excluded aircraft
type never pass the schedule query, whatever their other columns. -/
theorem actuals_aircraft_filter (db : Database) (origin destination f_no : String)
    (fdb start_date current_date : Date) :
    (∀ rec ∈ asrf_filtered db origin destination f_no fdb start_date current_date,
      ∃ r ∈ actualData db origin destination f_no fdb,
        rec = ⟨r.flightID, r.flightSchDept, r.source, r.dest, r.totalCargo, r.reportVolume,
          .actual⟩ ∧
        ∃ t, r.airCraftType = some t ∧ t ∉ badAircraftTypes) ∧
    (∀ a ∈ db.scheduleRouteForecast,
      (a.airCraftType = none ∨ (∃ t ∈ badAircraftTypes, a.airCraftType = some t)) →
        a ∉ fetchASRF db origin destination f_no fdb) := by
  constructor
  · intro rec hrec
    unfold asrf_filtered at hrec
    simp only [List.mem_map, List.mem_filter, Bool.and_eq_true, beq_iff_eq,
      decide_eq_true_eq] at hrec
    obtain ⟨x, ⟨⟨hx, _⟩, _, _⟩, rfl⟩ := hrec
    refine ⟨x, hx, rfl, ?_⟩
    obtain ⟨a, _, hW, _, _, _, _, hat, _⟩ := actualData_mem hx
    obtain ⟨_, _, _, ⟨t, hsome, hnb⟩, _⟩ := asrfWhere_eq_true hW
    exact ⟨t, by rw [hat, hsome], hnb⟩
  · intro a _ hbad hmem
    obtain ⟨_, hW⟩ := List.mem_filter.mp hmem
    obtain ⟨_, _, _, ⟨t, hsome, hnb⟩, _⟩ := asrfWhere_eq_true hW
    rcases hbad with hnone | ⟨tb, htb, hsome2⟩
    · rw [hnone] at hsome; cases hsome
    · rw [hsome2] at hsome
      obtain rfl : tb = t := Option.some.inj hsome
      exact hnb htb

/-- Witness for C10: the sample actual record traces back to the B737
row, and the ATR schedule row is excluded from the fetch. -/
theorem actuals_aircraft_filter_witness :
    (∃ r ∈ actualData sampleDb "DEL" "BOM" "F1" (-5),
      sampleRecA = ⟨r.flightID, r.flightSchDept, r.source, r.dest, r.totalCargo,
        r.reportVolume, .actual⟩ ∧
      ∃ t, r.airCraftType = some t ∧ t ∉ badAircraftTypes) ∧
    (⟨"F1", "DEL", "BOM", 6, some "ATR", some 1⟩ : ASRFRow) ∉
      fetchASRF sampleDb "DEL" "BOM" "F1" (-5) := by
  constructor
  · exact (actuals_aircraft_filter sampleDb "DEL" "BOM" "F1" (-5) 5 10).1 sampleRecA
      (by rw [asrf_filtered_sample]; simp)
  · exact (actuals_aircraft_filter sampleDb "DEL" "BOM" "F1" (-5) 5 10).2
      ⟨"F1", "DEL", "BOM", 6, some "ATR", some 1⟩ (by simp [sampleDb])
      (Or.inr ⟨"ATR", by simp [badAircraftTypes], rfl⟩)

/-- Filtering a duplicate-free list on equality with one of its
members yields exactly that member. -/
theorem filter_eq_singleton_of_nodup {α : Type} [DecidableEq α] {l : List α}
    (hl : l.Nodup) {a : α} (ha : a ∈ l) : l.filter (fun x => x = a) = [a] := by
  induction l with
  | nil => cases ha
  | cons b t ih =>
    rw [List.nodup_cons] at hl
    rcases List.mem_cons.mp ha with rfl | hat
    · rw [List.filter_cons_of_pos (by simp)]
      have ht : t.filter (fun x => x = a) = [] :=
        List.filter_eq_nil_iff.mpr (fun x hx => by
          simp only [decide_eq_true_eq]
          intro hxa
          exact hl.1 (hxa ▸ hx))
      rw [ht]
    · have hba : ¬(b = a) := fun hba => hl.1 (hba ▸ hat)
      rw [List.filter_cons_of_neg (by simpa using hba)]
      exact ih hl.2 hat

/-- The key column of one grouping pass is exactly the sorted distinct
key list. -/
theorem groupSum_keys (g : List GroupedRow) :
    (groupSum g).map GroupedRow.key = groupKeys g := by
  unfold groupSum
  rw [List.map_map]
  conv_rhs => rw [← List.map_id (groupKeys g)]
  apply List.map_congr_left
  intro k _
  simp [GroupedRow.key]

/-- The sorted distinct key list holds no duplicates. -/
theorem groupKeys_nodup (g : List GroupedRow) : (groupKeys g).Nodup :=
  ((List.perm_insertionSort keyLe _).nodup_iff).mpr (List.nodup_dedup _)

/-- The sorted distinct key list is sorted. -/
theorem groupKeys_sorted (g : List GroupedRow) : List.Sorted keyLe (groupKeys g) :=
  List.sorted_insertionSort keyLe _

/-- Selecting one key out of a grouping pass yields exactly the one
grouped row built for that key. -/
theorem groupSum_filter (g : List GroupedRow) {k : Date × Prov} (hk : k ∈ groupKeys g) :
    (groupSum g).filter (fun r => r.key = k) =
      [⟨k.1, k.2, ((g.filter (fun r => r.key = k)).map (fun r => r.weight)).sum,
        ((g.filter (fun r => r.key = k)).map (fun r => r.volume)).sum⟩] := by
  unfold groupSum
  rw [List.filter_map]
  rw [List.filter_congr (fun q _ => by simp [GroupedRow.key] :
    ∀ q ∈ groupKeys g, ((fun r : GroupedRow => decide (r.key = k)) ∘ fun k => (⟨k.1, k.2,
      ((g.filter (fun r => r.key = k)).map (fun r => r.weight)).sum,
      ((g.filter (fun r => r.key = k)).map (fun r => r.volume)).sum⟩ : GroupedRow)) q =
      decide (q = k))]
  rw [filter_eq_singleton_of_nodup (groupKeys_nodup g) hk]
  rfl

/-- The keys of a grouping pass are unchanged by a second pass. -/
theorem groupKeys_groupSum (g : List GroupedRow) :
    groupKeys (groupSum g) = groupKeys g := by
  conv_lhs => rw [groupKeys]
  rw [groupSum_keys]
  rw [List.dedup_eq_self.mpr (groupKeys_nodup g)]
  exact (groupKeys_sorted g).insertionSort_eq

/-- Grouping-then-summing is idempotent. -/
theorem groupSum_idem (g : List GroupedRow) : groupSum (groupSum g) = groupSum g := by
  conv_lhs => rw [groupSum]
  rw [groupKeys_groupSum]
  conv_rhs => rw [groupSum]
  apply List.map_congr_left
  intro k hk
  rw [groupSum_filter g hk]
  simp

/-- A groupby key occurs among the distinct keys of the reconcile
exactly when some record carries that date and provenance. -/
theorem mem_groupKeys_reconcile {rows : List CargoRecord} {d : Date} {p : Prov} :
    (d, p) ∈ groupKeys (rows.map CargoRecord.toGrouped) ↔
      ∃ r ∈ rows, r.date = d ∧ r.dataFrom = p := by
  unfold groupKeys
  rw [List.mem_insertionSort, List.mem_dedup, List.map_map]
  simp [Function.comp, GroupedRow.key, CargoRecord.toGrouped, Prod.ext_iff]

/-- C4: grouping by (date, provenance) and summing produces exactly
one row (so one weight and one volume value) per (date, provenance)
pair present in the records, and applying the group-sum step to the
result again returns it unchanged. -/
theorem reconcile_unique_and_idempotent (rows : List CargoRecord) :
    (∀ d p, (∃ r ∈ rows, r.date = d ∧ r.dataFrom = p) →
      ((reconcile rows).filter (fun gr => gr.key = (d, p))).length = 1) ∧
    groupSum (reconcile rows) = reconcile rows := by
  constructor
  · intro d p hex
    have hk : (d, p) ∈ groupKeys (rows.map CargoRecord.toGrouped) :=
      mem_groupKeys_reconcile.mpr hex
    rw [reconcile, groupSum_filter _ hk]
    rfl
  · rw [reconcile]
    exact groupSum_idem _

/-- Witness for C4 at the two sample records. -/
theorem reconcile_unique_and_idempotent_witness :
    ((reconcile [sampleRecA, sampleRecP]).filter
      (fun gr => gr.key = ((5 : Date), Prov.actual))).length = 1 ∧
    groupSum (reconcile [sampleRecA, sampleRecP]) = reconcile [sampleRecA, sampleRecP] :=
  ⟨(reconcile_unique_and_idempotent [sampleRecA, sampleRecP]).1 5 .actual
    ⟨sampleRecA, by simp, rfl, rfl⟩,
   (reconcile_unique_and_idempotent [sampleRecA, sampleRecP]).2⟩

/-- A provenance occurs among the rows exactly when some row carries
it. -/
theorem hasProv_iff {rows : List CargoRecord} {p : Prov} :
    hasProv rows p = true ↔ ∃ r ∈ rows, r.dataFrom = p := by
  unfold hasProv
  rw [List.any_eq_true]
  simp

/-- A date lies on the index exactly when some row carries it. -/
theorem mem_allDates {rows : List CargoRecord} {d : Date} :
    d ∈ allDates rows ↔ ∃ r ∈ rows, r.date = d := by
  unfold allDates
  rw [List.mem_insertionSort, List.mem_dedup, List.mem_map]

/-- If a provenance is absent from the rows its dropna series is
empty. -/
theorem dropna_nil_of_not_hasProv {rows : List CargoRecord} {p : Prov}
    (h : hasProv rows p = false) (m : Metric) : dropnaSeries rows m p = [] := by
  have hall : ∀ r ∈ rows, ¬(r.dataFrom = p) := by
    intro r hr hp
    rw [Bool.eq_false_iff] at h
    exact h (hasProv_iff.mpr ⟨r, hr, hp⟩)
  have hcell : ∀ d, cellAt rows m d p = none := by
    intro d
    have hg : groupRows rows d p = [] :=
      List.filter_eq_nil_iff.mpr (fun r hr => by
        simp only [Bool.and_eq_true, beq_iff_eq, not_and]
        intro _ hp
        exact hall r hr hp)
    unfold cellAt
    rw [hg]
  unfold dropnaSeries fullSeries
  rw [List.filterMap_map]
  apply List.filterMap_eq_nil_iff.mpr
  intro d _
  show (cellAt rows m d p).map (fun v => (d, v)) = none
  rw [hcell d]
  rfl

/-- If a provenance occurs among the rows its dropna series is
non-empty, for either metric. -/
theorem dropna_ne_nil_of_hasProv {rows : List CargoRecord} {p : Prov}
    (h : hasProv rows p = true) (m : Metric) : dropnaSeries rows m p ≠ [] := by
  obtain ⟨r, hr, hp⟩ := hasProv_iff.mp h
  have hd : r.date ∈ allDates rows := mem_allDates.mpr ⟨r, hr, rfl⟩
  have hcell : ∃ v, cellAt rows m r.date p = some v := by
    have hg : r ∈ groupRows rows r.date p :=
      List.mem_filter.mpr ⟨hr, by simp [hp]⟩
    unfold cellAt
    rcases hgr : groupRows rows r.date p with _ | ⟨a, t⟩
    · rw [hgr] at hg; cases hg
    · exact ⟨_, rfl⟩
  obtain ⟨v, hv⟩ := hcell
  have hmem : (r.date, v) ∈ dropnaSeries rows m p := by
    unfold dropnaSeries
    apply List.mem_filterMap.mpr
    refine ⟨(r.date, cellAt rows m r.date p), ?_, ?_⟩
    · exact List.mem_map.mpr ⟨r.date, hd, rfl⟩
    · rw [hv]; rfl
  exact List.ne_nil_of_mem hmem

/-- An entry of a dropna series is the cell of its date, and its date
lies on the index. -/
theorem mem_dropna {rows : List CargoRecord} {m : Metric} {p : Prov} {e : Date × ℚ}
    (he : e ∈ dropnaSeries rows m p) :
    cellAt rows m e.1 p = some e.2 ∧ e.1 ∈ allDates rows := by
  unfold dropnaSeries at he
  obtain ⟨x, hx, hfx⟩ := List.mem_filterMap.mp he
  unfold fullSeries at hx
  obtain ⟨d, hd, rfl⟩ := List.mem_map.mp hx
  rcases hc : cellAt rows m d p with _ | v
  · rw [hc] at hfx; cases hfx
  · rw [hc] at hfx
    simp only [Option.map_some'] at hfx
    obtain rfl := Option.some.inj hfx.symm
    exact ⟨hc, hd⟩

/-- The date column of a dropna pass is the index filtered to the
dates whose cell is present. -/
theorem map_fst_filterMap_cell (c : Date → Option ℚ) (l : List Date) :
    ((l.filterMap (fun d => (c d).map (fun v => (d, v)))).map Prod.fst) =
      l.filter (fun d => (c d).isSome) := by
  induction l with
  | nil => rfl
  | cons d t ih =>
    rcases hc : c d with _ | v <;>
      simp [List.filterMap_cons, hc, List.filter_cons, ih]

/-- The date column of a dropna series, as a filter of the index. -/
theorem map_fst_dropna (rows : List CargoRecord) (m : Metric) (p : Prov) :
    (dropnaSeries rows m p).map Prod.fst =
      (allDates rows).filter (fun d => (cellAt rows m d p).isSome) := by
  unfold dropnaSeries fullSeries
  rw [List.filterMap_map]
  exact map_fst_filterMap_cell (fun d => cellAt rows m d p) (allDates rows)

/-- The index is sorted ascending. -/
theorem allDates_sorted (rows : List CargoRecord) :
    List.Sorted (fun a b => a ≤ b) (allDates rows) :=
  List.sorted_insertionSort _ _

/-- A dropna series is sorted ascending by date. -/
theorem dropna_pairwise (rows : List CargoRecord) (m : Metric) (p : Prov) :
    (dropnaSeries rows m p).Pairwise (fun a b => a.1 ≤ b.1) := by
  have h1 : ((dropnaSeries rows m p).map Prod.fst).Pairwise (fun a b => a ≤ b) := by
    rw [map_fst_dropna]
    exact (allDates_sorted rows).filter _
  exact (List.pairwise_map).mp h1

/-- In a list sorted ascending by date, the last element has the
largest date. -/
theorem pairwise_fst_le_getLast {s : List (Date × ℚ)}
    (hs : s.Pairwise (fun a b => a.1 ≤ b.1)) (hne : s ≠ []) :
    ∀ e ∈ s, e.1 ≤ (s.getLast hne).1 := by
  induction s with
  | nil => cases hne rfl
  | cons a t ih =>
    rcases List.pairwise_cons.mp hs with ⟨ha, ht⟩
    intro e he
    rcases List.mem_cons.mp he with rfl | het
    · cases t with
      | nil => simp [List.getLast_singleton]
      | cons b t' =>
        rw [List.getLast_cons (List.cons_ne_nil b t')]
        exact ha _ (List.getLast_mem (List.cons_ne_nil b t'))
    · have htne : t ≠ [] := List.ne_nil_of_mem het
      rw [List.getLast_cons htne]
      exact ih ht htne e het

/-- In a list sorted ascending by date, the head has the smallest
date. -/
theorem pairwise_head_le_fst {s : List (Date × ℚ)}
    (hs : s.Pairwise (fun a b => a.1 ≤ b.1)) (hne : s ≠ []) :
    ∀ e ∈ s, (s.head hne).1 ≤ e.1 := by
  cases s with
  | nil => cases hne rfl
  | cons a t =>
    rcases List.pairwise_cons.mp hs with ⟨ha, _⟩
    intro e he
    simp only [List.head_cons]
    rcases List.mem_cons.mp he with rfl | het
    · exact le_refl _
    · exact ha e het

/-- Main-trace names never collide with transition names. -/
theorem provName_ne_transitionName (m m' : Metric) (pv : Prov) :
    provName m' pv ≠ transitionName m := by
  cases m <;> cases m' <;> cases pv <;> decide

/-- The two transition names are distinct per metric. -/
theorem transitionName_inj {m m' : Metric} (h : transitionName m' = transitionName m) :
    m' = m := by
  cases m <;> cases m' <;> first
  | rfl
  | exact absurd h (by decide)

/-- Every main trace carries one of the two main legend names of its
metric. -/
theorem mem_mainTraces_name {rows : List CargoRecord} {m' : Metric} {t : Trace}
    (ht : t ∈ mainTraces rows m') :
    t.name = provName m' .actual ∨ t.name = provName m' .pred := by
  unfold mainTraces at ht
  rw [List.mem_append] at ht
  rcases ht with h | h
  · cases hb : hasProv rows Prov.actual <;> rw [hb] at h
    · simp at h
    · simp at h
      subst h
      exact Or.inl rfl
  · cases hb : hasProv rows Prov.pred <;> rw [hb] at h
    · simp at h
    · simp at h
      subst h
      exact Or.inr rfl

/-- Every bridge trace carries the transition name of its metric. -/
theorem mem_bridgeTraces_name {rows : List CargoRecord} {m' : Metric} {t : Trace}
    (ht : t ∈ bridgeTraces rows m') : t.name = transitionName m' := by
  unfold bridgeTraces at ht
  by_cases hb : (hasProv rows Prov.actual && hasProv rows Prov.pred) = true
  · rw [if_pos hb] at ht
    rcases hla : (dropnaSeries rows m' .actual).getLast? with _ | la <;> rw [hla] at ht <;>
      rcases hfp : (dropnaSeries rows m' .pred).head? with _ | fp <;> rw [hfp] at ht <;>
      simp at ht
    subst ht
    rfl
  · rw [if_neg hb] at ht
    cases ht

/-- Filtering the figure traces on a transition name keeps exactly
the bridge traces of that metric. -/
theorem traces_filter_transition (rows : List CargoRecord) (today : Date) (m : Metric) :
    ((buildFigure rows today).traces.filter (fun t => t.name = transitionName m)) =
      bridgeTraces rows m := by
  have hmain : ∀ m',
      (mainTraces rows m').filter (fun t => decide (t.name = transitionName m)) = [] := by
    intro m'
    apply List.filter_eq_nil_iff.mpr
    intro t ht
    simp only [decide_eq_true_eq]
    intro hn
    rcases mem_mainTraces_name ht with h | h
    · exact provName_ne_transitionName m m' .actual (h.symm.trans hn)
    · exact provName_ne_transitionName m m' .pred (h.symm.trans hn)
  have hbr_ne : ∀ m', m' ≠ m →
      (bridgeTraces rows m').filter (fun t => decide (t.name = transitionName m)) = [] := by
    intro m' hne
    apply List.filter_eq_nil_iff.mpr
    intro t ht
    simp only [decide_eq_true_eq]
    intro hn
    exact hne (transitionName_inj ((mem_bridgeTraces_name ht).symm.trans hn))
  have hbr_eq :
      (bridgeTraces rows m).filter (fun t => decide (t.name = transitionName m)) =
        bridgeTraces rows m := by
    apply List.filter_eq_self.mpr
    intro t ht
    simp only [decide_eq_true_eq]
    exact mem_bridgeTraces_name ht
  show (mainTraces rows .weight ++ bridgeTraces rows .weight ++ mainTraces rows .volume ++
      bridgeTraces rows .volume).filter (fun t => decide (t.name = transitionName m)) =
    bridgeTraces rows m
  rw [List.filter_append, List.filter_append, List.filter_append,
    hmain .weight, hmain .volume]
  cases m
  · rw [hbr_eq, hbr_ne .volume (by decide)]
    simp
  · rw [hbr_eq, hbr_ne .weight (by decide)]
    simp

/-- C2: when both provenances have at least one data point, the
figure carries exactly one bridge trace per metric, running from the
last actual entry (the largest actual date, with its summed value) to
the first predicted entry (the smallest predicted date, with its
summed value); when either provenance is entirely absent, the figure
carries no bridge trace for that metric. -/
theorem bridge_segments (rows : List CargoRecord) (today : Date) (m : Metric) :
    (hasProv rows .actual = true → hasProv rows .pred = true →
      ∃ da wa dp wp,
        ((buildFigure rows today).traces.filter (fun t => t.name = transitionName m)) =
          [⟨transitionName m, [da, dp], [some wa, some wp], axisName m⟩] ∧
        cellAt rows m da .actual = some wa ∧
        (∀ e ∈ dropnaSeries rows m .actual, e.1 ≤ da) ∧
        cellAt rows m dp .pred = some wp ∧
        (∀ e ∈ dropnaSeries rows m .pred, dp ≤ e.1)) ∧
    ((hasProv rows .actual = false ∨ hasProv rows .pred = false) →
      ((buildFigure rows today).traces.filter (fun t => t.name = transitionName m)) = []) := by
  constructor
  · intro hA hP
    have hsa : dropnaSeries rows m .actual ≠ [] := dropna_ne_nil_of_hasProv hA m
    have hsp : dropnaSeries rows m .pred ≠ [] := dropna_ne_nil_of_hasProv hP m
    refine ⟨((dropnaSeries rows m .actual).getLast hsa).1,
      ((dropnaSeries rows m .actual).getLast hsa).2,
      ((dropnaSeries rows m .pred).head hsp).1,
      ((dropnaSeries rows m .pred).head hsp).2, ?_, ?_, ?_, ?_, ?_⟩
    · rw [traces_filter_transition]
      unfold bridgeTraces
      rw [if_pos (show (hasProv rows Prov.actual && hasProv rows Prov.pred) = true by
        rw [hA, hP]; rfl)]
      rw [List.getLast?_eq_getLast _ hsa, List.head?_eq_head hsp]
    · exact (mem_dropna (List.getLast_mem hsa)).1
    · exact pairwise_fst_le_getLast (dropna_pairwise rows m .actual) hsa
    · exact (mem_dropna (List.head_mem hsp)).1
    · exact pairwise_head_le_fst (dropna_pairwise rows m .pred) hsp
  · intro h
    rw [traces_filter_transition]
    unfold bridgeTraces
    rcases h with h | h
    · rw [if_neg (by rw [h]; simp)]
    · rw [if_neg (by rw [h]; simp)]

/-- Witness for C2 at the two sample records with both provenances
present, for the weight metric. -/
theorem bridge_segments_witness :
    hasProv [sampleRecA, sampleRecP] Prov.actual = true ∧
    hasProv [sampleRecA, sampleRecP] Prov.pred = true ∧
    (∃ da wa dp wp,
      ((buildFigure [sampleRecA, sampleRecP] 10).traces.filter
          (fun t => t.name = transitionName .weight)) =
        [⟨transitionName .weight, [da, dp], [some wa, some wp], axisName .weight⟩] ∧
      cellAt [sampleRecA, sampleRecP] .weight da .actual = some wa ∧
      (∀ e ∈ dropnaSeries [sampleRecA, sampleRecP] .weight .actual, e.1 ≤ da) ∧
      cellAt [sampleRecA, sampleRecP] .weight dp .pred = some wp ∧
      (∀ e ∈ dropnaSeries [sampleRecA, sampleRecP] .weight .pred, dp ≤ e.1)) :=
  ⟨by decide, by decide,
    (bridge_segments [sampleRecA, sampleRecP] 10 .weight).1 (by decide) (by decide)⟩

/-- Folding max commutes with taking max outside. -/
theorem foldl_max_comm (l : List ℚ) (a b : ℚ) :
    l.foldl max (max a b) = max a (l.foldl max b) := by
  induction l generalizing b with
  | nil => rfl
  | cons c t ih =>
    show t.foldl max (max (max a b) c) = max a (t.foldl max (max b c))
    rw [max_assoc]
    exact ih (max b c)

/-- A max fold dominates its seed and every element. -/
theorem le_foldl_max (l : List ℚ) (a : ℚ) :
    a ≤ l.foldl max a ∧ ∀ x ∈ l, x ≤ l.foldl max a := by
  induction l generalizing a with
  | nil => exact ⟨le_refl _, by simp⟩
  | cons c t ih =>
    constructor
    · exact le_trans (le_max_left a c) (ih (max a c)).1
    · intro x hx
      rcases List.mem_cons.mp hx with rfl | hxt
      · exact le_trans (le_max_right a x) (ih (max a x)).1
      · exact (ih (max a c)).2 x hxt

/-- A max fold over a non-empty list is the seed maxed with the
series maximum. -/
theorem foldl_max_acc_cons (a x : ℚ) (xs : List ℚ) :
    (x :: xs).foldl max a = max a (seriesMax (x :: xs)) := by
  show xs.foldl max (max a x) = max a (xs.foldl max x)
  exact foldl_max_comm xs a x

/-- A non-empty row set has a non-empty index. -/
theorem allDates_isEmpty_false_of_hasProv {rows : List CargoRecord} {p : Prov}
    (h : hasProv rows p = true) : (allDates rows).isEmpty = false := by
  obtain ⟨r, hr, _⟩ := hasProv_iff.mp h
  have hmem : r.date ∈ allDates rows := mem_allDates.mpr ⟨r, hr, rfl⟩
  rcases hD : allDates rows with _ | ⟨d, t⟩
  · rw [hD] at hmem; cases hmem
  · rfl

/-- The `max_weight` of lines 320-326 equals 2000 plus the fold of
max over every observed weight value, seeded with 0. -/
theorem max_weight_eq (rows : List CargoRecord) :
    max_weight rows = 2000 +
      (((dropnaSeries rows .weight .actual).map (fun e => e.2) ++
        (dropnaSeries rows .weight .pred).map (fun e => e.2)).foldl max 0) := by
  cases hA : hasProv rows Prov.actual <;> cases hP : hasProv rows Prov.pred
  · rw [max_weight]
    rw [dropna_nil_of_not_hasProv hA Metric.weight, dropna_nil_of_not_hasProv hP Metric.weight]
    simp [hA, hP]
  · have hPne : (dropnaSeries rows Metric.weight .pred).map (fun e => e.2) ≠ [] := by
      simpa using dropna_ne_nil_of_hasProv hP Metric.weight
    obtain ⟨y, ys, hy⟩ := List.exists_cons_of_ne_nil hPne
    rw [max_weight]
    rw [dropna_nil_of_not_hasProv hA Metric.weight]
    simp only [hA, hP, allDates_isEmpty_false_of_hasProv hP, Bool.false_and, Bool.not_false,
      Bool.and_self, Bool.true_and, Bool.and_true, if_false, if_true, Bool.false_eq_true,
      ite_false, ite_true, List.map_nil, List.nil_append]
    rw [hy, foldl_max_acc_cons]
    rw [add_comm]
  · have hAne : (dropnaSeries rows Metric.weight .actual).map (fun e => e.2) ≠ [] := by
      simpa using dropna_ne_nil_of_hasProv hA Metric.weight
    obtain ⟨x, xs, hx⟩ := List.exists_cons_of_ne_nil hAne
    rw [max_weight]
    rw [dropna_nil_of_not_hasProv hP Metric.weight]
    simp only [hA, hP, allDates_isEmpty_false_of_hasProv hA, Bool.false_and, Bool.not_false,
      Bool.and_self, Bool.true_and, Bool.and_true, if_false, if_true, Bool.false_eq_true,
      ite_false, ite_true, List.map_nil, List.append_nil]
    rw [hx, foldl_max_acc_cons]
    rw [add_comm]
  · have hAne : (dropnaSeries rows Metric.weight .actual).map (fun e => e.2) ≠ [] := by
      simpa using dropna_ne_nil_of_hasProv hA Metric.weight
    have hPne : (dropnaSeries rows Metric.weight .pred).map (fun e => e.2) ≠ [] := by
      simpa using dropna_ne_nil_of_hasProv hP Metric.weight
    obtain ⟨x, xs, hx⟩ := List.exists_cons_of_ne_nil hAne
    obtain ⟨y, ys, hy⟩ := List.exists_cons_of_ne_nil hPne
    rw [max_weight]
    simp only [hA, hP, allDates_isEmpty_false_of_hasProv hA, Bool.not_false, Bool.and_self,
      Bool.true_and, Bool.and_true, if_true, ite_true]
    rw [hx, hy, List.foldl_append, foldl_max_acc_cons, foldl_max_acc_cons]
    rw [add_comm]

/-- A present cell yields an entry of the dropna series. -/
theorem mem_dropna_of_cell {rows : List CargoRecord} {m : Metric} {p : Prov} {d : Date}
    {w : ℚ} (hc : cellAt rows m d p = some w) : (d, w) ∈ dropnaSeries rows m p := by
  have hd : d ∈ allDates rows := by
    rcases hg : groupRows rows d p with _ | ⟨a, t⟩
    · unfold cellAt at hc
      rw [hg] at hc
      cases hc
    · have ha : a ∈ groupRows rows d p := by
        rw [hg]; exact List.mem_cons_self a t
      have hfa := List.mem_filter.mp ha
      refine mem_allDates.mpr ⟨a, hfa.1, ?_⟩
      have hcond := hfa.2
      simp only [Bool.and_eq_true, beq_iff_eq] at hcond
      exact hcond.1
  unfold dropnaSeries
  apply List.mem_filterMap.mpr
  refine ⟨(d, cellAt rows m d p), ?_, ?_⟩
  · unfold fullSeries
    exact List.mem_map.mpr ⟨d, hd, rfl⟩
  · rw [hc]; rfl

/-- C6 as amended: the figure always carries exactly one vertical
line at today from 0 to `max_weight` and one Today label at
(today, `max_weight`), whether or not today lies in the displayed
range; `max_weight` is 2000 plus the maximum of 0 and every observed
weight value, so it sits at least 2000 above every weight cell. -/
theorem today_marker_spec (rows : List CargoRecord) (current_date : Date) :
    (buildFigure rows current_date).shapes =
      [⟨current_date, current_date, 0, max_weight rows⟩] ∧
    (buildFigure rows current_date).annotations =
      [⟨current_date, max_weight rows, "Today"⟩] ∧
    max_weight rows = 2000 +
      (((dropnaSeries rows .weight .actual).map (fun e => e.2) ++
        (dropnaSeries rows .weight .pred).map (fun e => e.2)).foldl max 0) ∧
    (∀ d p w, cellAt rows .weight d p = some w → w + 2000 ≤ max_weight rows) := by
  refine ⟨rfl, rfl, max_weight_eq rows, ?_⟩
  intro d p w hc
  have hmem := mem_dropna_of_cell hc
  have hw : w ∈ (dropnaSeries rows .weight .actual).map (fun e => e.2) ++
      (dropnaSeries rows .weight .pred).map (fun e => e.2) := by
    cases p
    · exact List.mem_append_left _ (List.mem_map.mpr ⟨(d, w), hmem, rfl⟩)
    · exact List.mem_append_right _ (List.mem_map.mpr ⟨(d, w), hmem, rfl⟩)
  have hle := (le_foldl_max _ 0).2 w hw
  rw [max_weight_eq rows]
  linarith

/-- Counterexample to C6: rendering the single actual record dated 5
with today = 10 shows the Today line and label even though every
displayed date is strictly before today. -/
theorem today_marker_counterexample :
    (buildFigure [sampleRecA] 10).shapes = [⟨10, 10, 0, 2150⟩] ∧
    (buildFigure [sampleRecA] 10).annotations = [⟨10, 2150, "Today"⟩] ∧
    allDates [sampleRecA] = [5] ∧ ((5 : Date) < 10) := by
  have hmw : max_weight [sampleRecA] = 2150 := by
    norm_num +decide [max_weight, hasProv, allDates, dropnaSeries, fullSeries, cellAt,
      groupRows, seriesMax, sampleRecA, CargoRecord.metricVal, List.insertionSort,
      List.orderedInsert, List.filterMap_cons]
  refine ⟨?_, ?_, ?_, by norm_num⟩
  · show [(⟨10, 10, 0, max_weight [sampleRecA]⟩ : Shape)] = [⟨10, 10, 0, 2150⟩]
    rw [hmw]
  · show [(⟨10, max_weight [sampleRecA], "Today"⟩ : Annot)] = [⟨10, 2150, "Today"⟩]
    rw [hmw]
  · norm_num +decide [allDates, sampleRecA, List.insertionSort, List.orderedInsert]

/-- Witness for the amended C6 at the sample actual record. -/
theorem today_marker_spec_witness :
    cellAt [sampleRecA] .weight 5 .actual = some 150 ∧
    (150 : ℚ) + 2000 ≤ max_weight [sampleRecA] := by
  have hc : cellAt [sampleRecA] .weight 5 .actual = some 150 := by
    norm_num +decide [cellAt, groupRows, sampleRecA, CargoRecord.metricVal]
  exact ⟨hc, (today_marker_spec [sampleRecA] 10).2.2.2 5 .actual 150 hc⟩

end CapacityForecast
